import Mathlib

/-!
Shallow embedding of the expense-tracker API core: the cached GET /expenses
listing handler, the POST /expenses mutation handler with its cache
invalidation, the periodic cache sweep, and the credentials-provider
`authorize` callback with its login cache.

JavaScript values are modelled as follows: a nullable query-string parameter
is `Option String` (`none` = absent/null); a JS number that may be NaN is
`Option Int` (`none` = NaN); timestamps (`Date.now()`) are `Nat`
milliseconds.  The storage collaborator (Prisma over the Expense relation)
is modelled relationally: a table is a `List Expense`, `findMany` filters,
sorts and paginates it, `count` counts matching rows; an invalid structured
query (unknown order column, bad direction, negative or NaN skip/take,
invalid date bound) makes the storage call fail, which the handlers surface
as their generic catch-all error.  Negative `take` (Prisma take-from-end) is
not exercised by any handler path modelled here and is also treated as a
failing query.
-/

namespace FinanceTracker

/-- Row of the prisma `Expense` model.  `date`, `createdAt`, `updatedAt` are
integer timestamps; `amount` (a `Float` column) is modelled as an integer
since no handler computes with its value. -/
structure Expense where
  id : String
  amount : Int
  category : String
  description : String
  date : Int
  createdAt : Int
  updatedAt : Int
  userId : String
deriving Repr, DecidableEq

/-- Raw query-string parameters of `GET /expenses`; `none` models an absent
parameter (`url.searchParams.get` returning null). -/
structure GetParams where
  page : Option String
  limit : Option String
  category : Option String
  startDate : Option String
  endDate : Option String
  sortBy : Option String
  order : Option String
deriving Repr, DecidableEq

/-- JS `parseInt` on a decimal string: skip leading spaces, optional sign,
then the longest digit prefix; `none` models NaN (no leading digit).
Hexadecimal `0x` prefixes are not modelled (no handler input uses them). -/
def parseIntJS (s : String) : Option Int :=
  let cs := s.toList.dropWhile (· = ' ')
  let signed : Bool × List Char :=
    match cs with
    | '-' :: t => (true, t)
    | '+' :: t => (false, t)
    | _ => (false, cs)
  let ds := signed.2.takeWhile Char.isDigit
  if ds.isEmpty then none
  else
    let n : Nat := ds.foldl (fun a c => a * 10 + (c.toNat - '0'.toNat)) 0
    some (if signed.1 then -(n : Int) else (n : Int))

/-- JS `x || d` on a nullable string: absent or empty falls back to `d`. -/
def jsOrDefault (o : Option String) (d : String) : String :=
  match o with
  | none => d
  | some s => if s = "" then d else s

/-- JS truthiness of a nullable string (`if (x)`): true iff present and
non-empty. -/
def jsTruthyStr : Option String → Bool
  | none => false
  | some s => s != ""

/-- Template-literal rendering of a JS number (`Option Int`, `none` = NaN). -/
def jsNumToString : Option Int → String
  | none => "NaN"
  | some n => toString n

/-- Template-literal rendering of a nullable string: null renders as the
four-character string `null`. -/
def jsOptToString : Option String → String
  | none => "null"
  | some s => s

/-- Result of `new Date(s)`: a valid timestamp or the NaN date. -/
inductive JsDate where
  | valid (t : Int)
  | invalid
deriving Repr, DecidableEq

/-- Splitting a character list on a separator (the semantics of
`String.splitOn` with a one-character separator). -/
def splitOnChar (sep : Char) : List Char → List (List Char)
  | [] => [[]]
  | c :: cs =>
    match splitOnChar sep cs with
    | r :: rs => if c = sep then [] :: r :: rs else (c :: r) :: rs
    | [] => [[]]

/-- Value of a nonempty all-digit character list, `none` otherwise. -/
def digitsToNat? (cs : List Char) : Option Nat :=
  if !cs.isEmpty && cs.all Char.isDigit then
    some (cs.foldl (fun a c => a * 10 + (c.toNat - '0'.toNat)) 0)
  else none

/-- JS `new Date(s)` for ISO `YYYY-MM-DD` strings (the format the app
supplies), as a code strictly monotone in the calendar date; anything else
is the invalid date.  Only the order on dates matters to the handlers. -/
def newDateJS (s : String) : JsDate :=
  match splitOnChar '-' s.toList with
  | [y, m, d] =>
    match digitsToNat? y, digitsToNat? m, digitsToNat? d with
    | some yn, some mn, some dn => .valid ((yn * 10000 + mn * 100 + dn : Nat) : Int)
    | _, _, _ => .invalid
  | _ => .invalid

/-- The prisma where clause built by `GET /expenses`: owner always, category
and date bounds conditionally. -/
structure WhereClause where
  userId : String
  category : Option String
  dateGte : Option JsDate
  dateLte : Option JsDate
deriving Repr, DecidableEq

/-- Where clause construction from the handler (`where.userId` always;
`where.category` when the parameter is truthy; `where.date.gte/.lte` from
`new Date` when the corresponding parameter is truthy). -/
def buildWhere (userId : String) (p : GetParams) : WhereClause :=
  { userId := userId
    category := if jsTruthyStr p.category then p.category else none
    dateGte :=
      match p.startDate with
      | some s => if s = "" then none else some (newDateJS s)
      | none => none
    dateLte :=
      match p.endDate with
      | some s => if s = "" then none else some (newDateJS s)
      | none => none }

/-- Row predicate of a where clause (conjunctive filters).  The invalid-date
branches are unreachable through `runCount`/`runFindMany`, which reject such
clauses first. -/
def matchesWhere (w : WhereClause) (e : Expense) : Bool :=
  e.userId == w.userId
  && (match w.category with
      | none => true
      | some c => e.category == c)
  && (match w.dateGte with
      | none => true
      | some (.valid t) => decide (t ≤ e.date)
      | some .invalid => false)
  && (match w.dateLte with
      | none => true
      | some (.valid t) => decide (e.date ≤ t)
      | some .invalid => false)

/-- A where clause with an invalid date bound makes the storage call fail. -/
def hasInvalidBound (w : WhereClause) : Bool :=
  w.dateGte == some .invalid || w.dateLte == some .invalid

/-- Columns of the `Expense` relation that a prisma orderBy may name. -/
def isExpenseField (f : String) : Bool :=
  f == "id" || f == "amount" || f == "category" || f == "description"
    || f == "date" || f == "createdAt" || f == "updatedAt" || f == "userId"

/-- Lexicographic comparison of character lists (string collation of the
storage collaborator). -/
def charListLe : List Char → List Char → Bool
  | [], _ => true
  | _ :: _, [] => false
  | a :: as, b :: bs => if a = b then charListLe as bs else decide (a < b)

/-- Lexicographic comparison of strings. -/
def strLe (a b : String) : Bool :=
  charListLe a.toList b.toList

/-- Comparison of two expenses on a named column. -/
def fieldLe (f : String) (a b : Expense) : Bool :=
  if f == "id" then strLe a.id b.id
  else if f == "amount" then decide (a.amount ≤ b.amount)
  else if f == "category" then strLe a.category b.category
  else if f == "description" then strLe a.description b.description
  else if f == "date" then decide (a.date ≤ b.date)
  else if f == "createdAt" then decide (a.createdAt ≤ b.createdAt)
  else if f == "updatedAt" then decide (a.updatedAt ≤ b.updatedAt)
  else strLe a.userId b.userId

/-- Ordered insertion for the sort below. -/
def insertLe (le : Expense → Expense → Bool) (e : Expense) : List Expense → List Expense
  | [] => [e]
  | x :: xs => if le e x then e :: x :: xs else x :: insertLe le e xs

/-- Stable insertion sort; the database sort is specified only up to the
ordering relation, so any sort with the same membership serves. -/
def sortByLe (le : Expense → Expense → Bool) : List Expense → List Expense
  | [] => []
  | x :: xs => insertLe le x (sortByLe le xs)

/-- Sort a result set on a named column in the given direction. -/
def sortExpenses (f dir : String) (l : List Expense) : List Expense :=
  if dir == "desc" then sortByLe (fun a b => fieldLe f b a) l
  else sortByLe (fieldLe f) l

/-- Arguments of the `prisma.expense.findMany` call issued by the handler. -/
structure FindManyArgs where
  whereClause : WhereClause
  orderField : String
  orderDir : String
  skip : Int
  take : Int
deriving Repr, DecidableEq

/-- Relational semantics of `prisma.expense.count`: `none` models a thrown
storage/validation error. -/
def runCount (store : List Expense) (w : WhereClause) : Option Nat :=
  if hasInvalidBound w then none
  else some (store.filter (matchesWhere w)).length

/-- Relational semantics of `prisma.expense.findMany`: `none` models a
thrown storage/validation error (unknown order column, direction other than
asc/desc, negative skip or take, invalid date bound). -/
def runFindMany (store : List Expense) (q : FindManyArgs) : Option (List Expense) :=
  if !isExpenseField q.orderField then none
  else if q.orderDir != "asc" && q.orderDir != "desc" then none
  else if q.skip < 0 || q.take < 0 then none
  else if hasInvalidBound q.whereClause then none
  else
    let rows := store.filter (matchesWhere q.whereClause)
    some (((sortExpenses q.orderField q.orderDir rows).drop q.skip.toNat).take q.take.toNat)

/-- Pagination metadata of the listing response.  `pages` is
`Math.ceil(total / limit)`: a finite value only when `limit` is nonzero;
`none` models the non-finite JS results (NaN when `0/0`, Infinity when
`total > 0` and `limit = 0`), which serialize as JSON null. -/
structure Pagination where
  total : Nat
  page : Int
  limit : Int
  pages : Option Int
deriving Repr, DecidableEq

/-- Math.ceil of `total / limit` for a nonnegative total and integer limit. -/
def jsCeilDiv (total : Nat) (limit : Int) : Option Int :=
  match limit with
  | .ofNat 0 => none
  | .ofNat (n + 1) => some (((total + n) / (n + 1) : Nat) : Int)
  | .negSucc m => some (-(((total / (m + 1) : Nat)) : Int))

/-- Body of a successful `GET /expenses` response. -/
structure ExpensesBody where
  data : List Expense
  pagination : Pagination
deriving Repr, DecidableEq

/-- Entry of the in-memory results cache (`{ data, timestamp, userId }`). -/
structure CacheEntry where
  data : ExpensesBody
  timestamp : Nat
  userId : String
deriving Repr, DecidableEq

/-- The results cache, a JS `Map` modelled as an association list. -/
abbrev Cache := List (String × CacheEntry)

/-- CACHE_TTL = 30000 milliseconds. -/
def cacheTTL : Nat := 30000

/-- Map.get on the results cache. -/
def cacheGet (c : Cache) (k : String) : Option CacheEntry :=
  (c.find? (fun kv => kv.1 == k)).map (fun kv => kv.2)

/-- Map.set on the results cache (replace any entry at the key). -/
def cacheSet (c : Cache) (k : String) (e : CacheEntry) : Cache :=
  (k, e) :: c.filter (fun kv => kv.1 != k)

/-- The periodic cleanup body (`setInterval`): delete every entry with
`now - timestamp > CACHE_TTL`. -/
def sweep (now : Nat) (c : Cache) : Cache :=
  c.filter (fun kv => !(decide (now - kv.2.timestamp > cacheTTL)))

/-- The invalidation loop of the mutation handler: delete every entry whose
stored `userId` equals the mutating owner. -/
def invalidateByOwner (c : Cache) (u : String) : Cache :=
  c.filter (fun kv => kv.2.userId != u)

/-- Parsed `page` parameter: `parseInt(url.searchParams.get('page') || '1')`. -/
def pageOf (p : GetParams) : Option Int :=
  parseIntJS (jsOrDefault p.page "1")

/-- Parsed `limit` parameter: `parseInt(url.searchParams.get('limit') || '50')`. -/
def limitOf (p : GetParams) : Option Int :=
  parseIntJS (jsOrDefault p.limit "50")

/-- Effective sort field: `url.searchParams.get('sortBy') || 'date'`. -/
def sortByOf (p : GetParams) : String :=
  jsOrDefault p.sortBy "date"

/-- Effective sort direction: `url.searchParams.get('order') || 'desc'`. -/
def orderOf (p : GetParams) : String :=
  jsOrDefault p.order "desc"

/-- The cache key of a request: the template literal
`expenses-(userId)-(page)-(limit)-(category)-(startDate)-(endDate)-(sortBy)-(order)`
with parsed page/limit numbers and raw nullable strings. -/
def requestCacheKey (userId : String) (p : GetParams) : String :=
  "expenses-" ++ userId ++ "-" ++ jsNumToString (pageOf p) ++ "-"
    ++ jsNumToString (limitOf p) ++ "-" ++ jsOptToString p.category ++ "-"
    ++ jsOptToString p.startDate ++ "-" ++ jsOptToString p.endDate ++ "-"
    ++ sortByOf p ++ "-" ++ orderOf p

/-- The findMany arguments the handler builds: the conditional where clause,
the raw sort field written into `orderBy[sortBy] = order`, and
`skip = (page-1)*limit`, `take = limit`.  Defined only on numeric page and
limit; the handler fails before this call otherwise. -/
def builtFindManyArgs (uid : String) (p : GetParams) (pageN limitN : Int) : FindManyArgs :=
  { whereClause := buildWhere uid p
    orderField := sortByOf p
    orderDir := orderOf p
    skip := (pageN - 1) * limitN
    take := limitN }

/-- Outcome of the `GET /expenses` handler, distinguishing the cache-served
and storage-served success paths. -/
inductive GetResult where
  | unauthorized
  | cached (body : ExpensesBody)
  | fresh (body : ExpensesBody)
  | queryFailed
deriving Repr, DecidableEq

/-- HTTP status of a GET outcome: 401, 200, or the catch-all 500 whose body
is the generic message, never a field-specific validation failure. -/
def GetResult.status : GetResult → Nat
  | .unauthorized => 401
  | .cached _ => 200
  | .fresh _ => 200
  | .queryFailed => 500

/-- Payload of a successful GET outcome, from either path. -/
def GetResult.payload : GetResult → Option ExpensesBody
  | .cached b => some b
  | .fresh b => some b
  | _ => none

/-- Result and post-state of one GET request. -/
structure GetOutcome where
  result : GetResult
  cache : Cache
deriving Repr, DecidableEq

/-- The storage-querying tail of the GET handler (cache miss): count, then
findMany, then build and cache the response.  `storageOk = false` models a
transient failure of the storage collaborator (both calls throw), surfacing
as the catch-all 500. -/
def getFreshPath (uid : String) (p : GetParams) (store : List Expense)
    (c : Cache) (now : Nat) (storageOk : Bool) (key : String) : GetOutcome :=
  if !storageOk then ⟨.queryFailed, c⟩
  else
    match runCount store (buildWhere uid p) with
    | none => ⟨.queryFailed, c⟩
    | some total =>
      match pageOf p, limitOf p with
      | some pageN, some limitN =>
        match runFindMany store (builtFindManyArgs uid p pageN limitN) with
        | none => ⟨.queryFailed, c⟩
        | some rows =>
          let body : ExpensesBody :=
            ⟨rows, ⟨total, pageN, limitN, jsCeilDiv total limitN⟩⟩
          ⟨.fresh body, cacheSet c key ⟨body, now, uid⟩⟩
      | _, _ => ⟨.queryFailed, c⟩

/-- The `GET /expenses` handler.  `session` is the authenticated user id
from the identity collaborator (`none` = no session), `now` the clock in
milliseconds. -/
def getExpenses (session : Option String) (p : GetParams) (store : List Expense)
    (c : Cache) (now : Nat) (storageOk : Bool) : GetOutcome :=
  match session with
  | none => ⟨.unauthorized, c⟩
  | some uid =>
    match cacheGet c (requestCacheKey uid p) with
    | some e =>
      if e.userId = uid ∧ now - e.timestamp < cacheTTL then ⟨.cached e.data, c⟩
      else getFreshPath uid p store c now storageOk (requestCacheKey uid p)
    | none => getFreshPath uid p store c now storageOk (requestCacheKey uid p)

/-- JSON body of `POST /expenses`; each field `none` when absent.  `amount`
is a JSON number (`Float` in the schema), modelled as an integer since its
value is only tested for truthiness. -/
structure PostBody where
  amount : Option Int
  category : Option String
  description : Option String
  date : Option String
deriving Repr, DecidableEq

/-- JS truthiness of a nullable number: true iff present and nonzero. -/
def jsTruthyNum : Option Int → Bool
  | none => false
  | some n => n != 0

/-- Outcome kinds of the `POST /expenses` handler. -/
inductive PostResult where
  | unauthorized
  | missingFields
  | created (e : Expense)
  | createFailed
deriving Repr, DecidableEq

/-- HTTP status of a POST outcome. -/
def PostResult.status : PostResult → Nat
  | .unauthorized => 401
  | .missingFields => 400
  | .created _ => 201
  | .createFailed => 500

/-- Result and post-state of one POST request. -/
structure PostOutcome where
  result : PostResult
  cache : Cache
  store : List Expense
deriving Repr, DecidableEq

/-- The `POST /expenses` handler: 401 without a session; 400 when any of the
four destructured fields is falsy; otherwise create the row for the
authenticated owner (`newId` models the generated cuid; an invalid date or
a storage failure throws, surfacing as the catch-all 500 with no
invalidation), then run the invalidation loop before responding 201. -/
def postExpense (session : Option String) (body : PostBody) (store : List Expense)
    (c : Cache) (now : Nat) (newId : String) (storageOk : Bool) : PostOutcome :=
  match session with
  | none => ⟨.unauthorized, c, store⟩
  | some uid =>
    if !jsTruthyNum body.amount || !jsTruthyStr body.category
        || !jsTruthyStr body.description || !jsTruthyStr body.date then
      ⟨.missingFields, c, store⟩
    else
      match newDateJS (body.date.getD ""), storageOk with
      | .valid d, true =>
        let e : Expense :=
          { id := newId
            amount := body.amount.getD 0
            category := body.category.getD ""
            description := body.description.getD ""
            date := d
            createdAt := now
            updatedAt := now
            userId := uid }
        ⟨.created e, invalidateByOwner c uid, store ++ [e]⟩
      | _, _ => ⟨.createFailed, c, store⟩

/-- JS `toLowerCase` (ASCII range, the range the app uses), character-wise. -/
def toLowerJS (s : String) : String :=
  String.mk (s.toList.map Char.toLower)

/-- Row of the prisma `User` model (the fields `authorize` selects).
`password` holds the bcrypt hash, treated as opaque. -/
structure User where
  id : String
  email : String
  name : Option String
  password : String
deriving Repr, DecidableEq

/-- The object `authorize` returns and caches (id, email, name). -/
structure UserObj where
  id : String
  email : String
  name : Option String
deriving Repr, DecidableEq

/-- Entry of the in-memory login cache.  `expiresAt` is the moment the
`setTimeout` scheduled at insertion deletes the entry (insertion time plus
one hour). -/
structure LoginEntry where
  key : String
  user : UserObj
  expiresAt : Nat
deriving Repr, DecidableEq

/-- The login cache (a JS `Map`), as a list of entries. -/
abbrev LoginCache := List LoginEntry

/-- Map lookup on the login cache. -/
def loginCacheGet (c : LoginCache) (k : String) : Option UserObj :=
  (c.find? (fun e => e.key == k)).map (fun e => e.user)

/-- Firing of the scheduled `setTimeout` deletions due by `now`: every entry
inserted at least one hour ago is removed. -/
def expireLogins (now : Nat) (c : LoginCache) : LoginCache :=
  c.filter (fun e => decide (now < e.expiresAt))

/-- Outcome of one `authorize` call: the returned user (`none` models the
thrown Invalid credentials error), the login cache afterwards, and whether
the bcrypt comparison was invoked at all. -/
structure AuthorizeOutcome where
  result : Option UserObj
  cache : LoginCache
  comparedPassword : Bool
deriving Repr, DecidableEq

/-- The credentials-provider `authorize` callback.  `cmp` models the bcrypt
`compare` collaborator; `users` the User table.  The cache key is the
lowercased email joined by a colon to the first three characters of the
submitted password; a hit returns the cached user before any database
lookup or password comparison; a successful comparison caches the user with
a one-hour deletion timer. -/
def authorize (cmp : String → String → Bool) (users : List User)
    (credEmail credPassword : String) (c : LoginCache) (now : Nat) : AuthorizeOutcome :=
  if credEmail = "" ∨ credPassword = "" then ⟨none, c, false⟩
  else
    let email := toLowerJS credEmail
    let key := email ++ ":" ++ (credPassword.take 3)
    match loginCacheGet c key with
    | some u => ⟨some u, c, false⟩
    | none =>
      match users.find? (fun u => u.email == email) with
      | none => ⟨none, c, false⟩
      | some user =>
        if user.password = "" then ⟨none, c, false⟩
        else if cmp credPassword user.password then
          let uo : UserObj := ⟨user.id, user.email, user.name⟩
          ⟨some uo, ⟨key, uo, now + 3600000⟩ :: c, true⟩
        else ⟨none, c, true⟩

/-- Modelled bcrypt compare for a one-user credential store: exactly the
password that the stored hash was derived from matches it. -/
def cmpModel : String → String → Bool :=
  fun pw hash => pw == "hunter2!" && hash == "hashOfHunter"

/-- The one-user User table for the login-cache theorem. -/
def usersModel : List User :=
  [⟨"u1", "a@b.c", none, "hashOfHunter"⟩]

/-- Cache invariant: the rows stored in every entry all belong to the owner
recorded in that entry. -/
def cacheOwnedBy (c : Cache) : Prop :=
  ∀ kv ∈ c, ∀ e ∈ kv.2.data.data, e.userId = kv.2.userId

/-! ## Helper lemmas about the cache and the storage model -/

theorem cacheGet_mem {c : Cache} {k : String} {e : CacheEntry}
    (h : cacheGet c k = some e) : ∃ kv ∈ c, kv.1 = k ∧ kv.2 = e := by
  unfold cacheGet at h
  cases hf : c.find? (fun kv => kv.1 == k) with
  | none => rw [hf] at h; simp at h
  | some kv =>
    rw [hf] at h
    simp only [Option.map] at h
    refine ⟨kv, List.mem_of_find?_eq_some hf, ?_, by injection h⟩
    have := List.find?_some hf
    simpa using this

theorem mem_cacheSet {c : Cache} {k : String} {e : CacheEntry} {kv : String × CacheEntry} :
    kv ∈ cacheSet c k e ↔ kv = (k, e) ∨ (kv ∈ c ∧ kv.1 ≠ k) := by
  simp [cacheSet, List.mem_filter, bne_iff_ne]

theorem mem_invalidateByOwner {c : Cache} {u : String} {kv : String × CacheEntry} :
    kv ∈ invalidateByOwner c u ↔ kv ∈ c ∧ kv.2.userId ≠ u := by
  simp [invalidateByOwner, List.mem_filter, bne_iff_ne]

theorem mem_sweep {now : Nat} {c : Cache} {kv : String × CacheEntry} :
    kv ∈ sweep now c ↔ kv ∈ c ∧ now - kv.2.timestamp ≤ cacheTTL := by
  simp [sweep, List.mem_filter, Nat.not_lt]

theorem mem_insertLe {le : Expense → Expense → Bool} {e a : Expense} {l : List Expense} :
    a ∈ insertLe le e l ↔ a = e ∨ a ∈ l := by
  induction l with
  | nil => simp [insertLe]
  | cons x xs ih =>
    unfold insertLe
    split
    · simp
    · simp only [List.mem_cons, ih]
      tauto

theorem mem_sortByLe {le : Expense → Expense → Bool} {a : Expense} {l : List Expense} :
    a ∈ sortByLe le l ↔ a ∈ l := by
  induction l with
  | nil => simp [sortByLe]
  | cons x xs ih =>
    unfold sortByLe
    rw [mem_insertLe, ih]
    simp

theorem mem_sortExpenses {f dir : String} {a : Expense} {l : List Expense} :
    a ∈ sortExpenses f dir l ↔ a ∈ l := by
  unfold sortExpenses
  split <;> exact mem_sortByLe

theorem matchesWhere_userId {w : WhereClause} {e : Expense}
    (h : matchesWhere w e = true) : e.userId = w.userId := by
  unfold matchesWhere at h
  simp only [Bool.and_eq_true, beq_iff_eq] at h
  exact h.1.1.1

theorem runFindMany_owner {store : List Expense} {q : FindManyArgs} {rows : List Expense}
    (h : runFindMany store q = some rows) :
    ∀ e ∈ rows, e.userId = q.whereClause.userId := by
  intro e he
  unfold runFindMany at h
  split at h
  · exact absurd h (by simp)
  · split at h
    · exact absurd h (by simp)
    · split at h
      · exact absurd h (by simp)
      · split at h
        · exact absurd h (by simp)
        · injection h with h
          subst h
          have h1 : e ∈ sortExpenses q.orderField q.orderDir
              (store.filter (matchesWhere q.whereClause)) :=
            List.drop_subset _ _ (List.take_subset _ _ he)
          have h2 : e ∈ store.filter (matchesWhere q.whereClause) :=
            mem_sortExpenses.mp h1
          exact matchesWhere_userId (List.mem_filter.mp h2).2

theorem runCount_length {store : List Expense} {w : WhereClause} {n : Nat}
    (h : runCount store w = some n) :
    n = (store.filter (matchesWhere w)).length := by
  unfold runCount at h
  split at h
  · exact absurd h (by simp)
  · injection h with h
    exact h.symm

theorem getFreshPath_cases (uid : String) (p : GetParams) (store : List Expense)
    (c : Cache) (now : Nat) (ok : Bool) (key : String) :
    ((getFreshPath uid p store c now ok key).result = .queryFailed
      ∧ (getFreshPath uid p store c now ok key).cache = c)
    ∨ ∃ rows total pageN limitN,
        pageOf p = some pageN ∧ limitOf p = some limitN
        ∧ runCount store (buildWhere uid p) = some total
        ∧ runFindMany store (builtFindManyArgs uid p pageN limitN) = some rows
        ∧ getFreshPath uid p store c now ok key =
            ⟨.fresh ⟨rows, ⟨total, pageN, limitN, jsCeilDiv total limitN⟩⟩,
             cacheSet c key ⟨⟨rows, ⟨total, pageN, limitN, jsCeilDiv total limitN⟩⟩, now, uid⟩⟩ := by
  unfold getFreshPath
  split
  · exact Or.inl ⟨rfl, rfl⟩
  · split
    · exact Or.inl ⟨rfl, rfl⟩
    · next total hcount =>
      split
      · next pageN limitN hpage hlimit =>
        split
        · exact Or.inl ⟨rfl, rfl⟩
        · next rows hrows =>
          exact Or.inr ⟨rows, total, pageN, limitN, hpage, hlimit, hcount, hrows, rfl⟩
      · exact Or.inl ⟨rfl, rfl⟩

theorem getFreshPath_not_cached {uid : String} {p : GetParams} {store : List Expense}
    {c : Cache} {now : Nat} {ok : Bool} {key : String} {b : ExpensesBody} :
    (getFreshPath uid p store c now ok key).result ≠ .cached b := by
  rcases getFreshPath_cases uid p store c now ok key with ⟨h, _⟩ | ⟨_, _, _, _, _, _, _, _, h⟩
  · rw [h]; intro hc; exact GetResult.noConfusion hc
  · rw [h]; intro hc; exact GetResult.noConfusion hc

theorem getExpenses_cached_spec {uid : String} {p : GetParams} {store : List Expense}
    {c : Cache} {now : Nat} {ok : Bool} {b : ExpensesBody}
    (h : (getExpenses (some uid) p store c now ok).result = .cached b) :
    ∃ kv ∈ c, kv.1 = requestCacheKey uid p ∧ kv.2.userId = uid
      ∧ now - kv.2.timestamp < cacheTTL ∧ kv.2.data = b := by
  simp only [getExpenses] at h
  split at h
  · next e heq =>
    split at h
    · next hcond =>
      obtain ⟨kv, hkv, hk, he⟩ := cacheGet_mem heq
      have h2 : GetResult.cached e.data = GetResult.cached b := h
      injection h2 with h2
      exact ⟨kv, hkv, hk, by rw [he]; exact hcond.1, by rw [he]; exact hcond.2,
             by rw [he, h2]⟩
    · exact absurd h getFreshPath_not_cached
  · exact absurd h getFreshPath_not_cached

theorem getExpenses_some_cases (uid : String) (p : GetParams) (store : List Expense)
    (c : Cache) (now : Nat) (ok : Bool) :
    (∃ e, cacheGet c (requestCacheKey uid p) = some e ∧ e.userId = uid
        ∧ now - e.timestamp < cacheTTL
        ∧ getExpenses (some uid) p store c now ok = ⟨.cached e.data, c⟩)
    ∨ getExpenses (some uid) p store c now ok
        = getFreshPath uid p store c now ok (requestCacheKey uid p) := by
  simp only [getExpenses]
  split
  · next e heq =>
    split
    · next hcond => exact Or.inl ⟨e, heq, hcond.1, hcond.2, rfl⟩
    · exact Or.inr rfl
  · exact Or.inr rfl

/-- C1: every expense row in the payload of an authenticated GET /expenses
by owner `uid` belongs to `uid`, whether the payload is served from the
result cache or computed from storage; a cached entry is only returned when
its stored userId equals `uid`; and the owner invariant on the cache is
preserved. -/
theorem get_expenses_owner_scoped (uid : String) (p : GetParams) (store : List Expense)
    (c : Cache) (now : Nat) (ok : Bool) (hinv : cacheOwnedBy c) :
    (∀ body, (getExpenses (some uid) p store c now ok).result.payload = some body →
      ∀ e ∈ body.data, e.userId = uid)
    ∧ (∀ body, (getExpenses (some uid) p store c now ok).result = .cached body →
      ∃ kv ∈ c, kv.2.userId = uid ∧ kv.2.data = body)
    ∧ cacheOwnedBy (getExpenses (some uid) p store c now ok).cache := by
  rcases getExpenses_some_cases uid p store c now ok with
    ⟨e, heq, huid, _, hout⟩ | hout
  · obtain ⟨kv, hkv, _, he⟩ := cacheGet_mem heq
    rw [hout]
    refine ⟨?_, ?_, ?_⟩
    · intro body hb
      have hb2 : some e.data = some body := hb
      injection hb2 with hb2
      subst hb2
      intro e0 he0
      have h0 := hinv kv hkv e0 (by rw [he]; exact he0)
      rw [h0, he, huid]
    · intro body hb
      have hb2 : GetResult.cached e.data = GetResult.cached body := hb
      injection hb2 with hb2
      exact ⟨kv, hkv, by rw [he]; exact huid, by rw [he, hb2]⟩
    · exact hinv
  · rcases getFreshPath_cases uid p store c now ok (requestCacheKey uid p) with
      ⟨hres, hcache⟩ | ⟨rows, total, pageN, limitN, _, _, _, hrows, hfp⟩
    · rw [hout]
      refine ⟨?_, ?_, ?_⟩
      · intro body hb
        rw [hres] at hb
        exact absurd hb (by simp [GetResult.payload])
      · intro body hb
        rw [hres] at hb
        exact GetResult.noConfusion hb
      · rw [hcache]; exact hinv
    · rw [hout, hfp]
      have hown : ∀ e ∈ rows, e.userId = uid := by
        intro e he
        have h0 := runFindMany_owner hrows e he
        simpa [builtFindManyArgs, buildWhere] using h0

      refine ⟨?_, ?_, ?_⟩
      · intro body hb
        have hb2 : some (⟨rows, ⟨total, pageN, limitN, jsCeilDiv total limitN⟩⟩ :
            ExpensesBody) = some body := hb
        injection hb2 with hb2
        subst hb2
        exact hown
      · intro body hb
        exact GetResult.noConfusion hb
      · intro kv hkv
        rcases mem_cacheSet.mp hkv with h1 | ⟨h2, _⟩
        · subst h1
          intro e he
          exact hown e he
        · exact hinv kv h2

/-- Witness for the owner-scoping theorem at a concrete request on an empty
cache and a one-row store. -/
theorem get_expenses_owner_scoped_witness :
    cacheOwnedBy ([] : Cache)
    ∧ ((∀ body, (getExpenses (some "u1") ⟨none, none, none, none, none, none, none⟩
          [⟨"a", 10, "food", "x", 2, 0, 0, "u1"⟩] [] 0 true).result.payload = some body →
          ∀ e ∈ body.data, e.userId = "u1")
      ∧ (∀ body, (getExpenses (some "u1") ⟨none, none, none, none, none, none, none⟩
          [⟨"a", 10, "food", "x", 2, 0, 0, "u1"⟩] [] 0 true).result = .cached body →
          ∃ kv ∈ ([] : Cache), kv.2.userId = "u1" ∧ kv.2.data = body)
      ∧ cacheOwnedBy (getExpenses (some "u1") ⟨none, none, none, none, none, none, none⟩
          [⟨"a", 10, "food", "x", 2, 0, 0, "u1"⟩] [] 0 true).cache) :=
  ⟨by simp [cacheOwnedBy],
   get_expenses_owner_scoped "u1" ⟨none, none, none, none, none, none, none⟩
     [⟨"a", 10, "food", "x", 2, 0, 0, "u1"⟩] [] 0 true (by simp [cacheOwnedBy])⟩

theorem postExpense_some_cases (uid : String) (body : PostBody) (store : List Expense)
    (c : Cache) (now : Nat) (newId : String) (ok : Bool) :
    ((postExpense (some uid) body store c now newId ok).cache = c
      ∧ ∀ e, (postExpense (some uid) body store c now newId ok).result ≠ .created e)
    ∨ (∃ e, postExpense (some uid) body store c now newId ok
          = ⟨.created e, invalidateByOwner c uid, store ++ [e]⟩ ∧ e.userId = uid) := by
  simp only [postExpense]
  split
  · exact Or.inl ⟨rfl, fun e h => PostResult.noConfusion h⟩
  · split
    · exact Or.inr ⟨_, rfl, rfl⟩
    · exact Or.inl ⟨rfl, fun e h => PostResult.noConfusion h⟩

/-- C3: a successful POST /expenses by owner `uid` removes every cache entry
whose stored owner is `uid` before responding, and a subsequent GET by `uid`
against the resulting cache can never be served from the cache. -/
theorem post_invalidates_owner (uid : String) (body : PostBody) (store : List Expense)
    (c : Cache) (now : Nat) (newId : String) (ok : Bool) (e : Expense)
    (h : (postExpense (some uid) body store c now newId ok).result = .created e) :
    (∀ kv ∈ (postExpense (some uid) body store c now newId ok).cache, kv.2.userId ≠ uid)
    ∧ ∀ p store2 now2 ok2 b,
        (getExpenses (some uid) p store2
          (postExpense (some uid) body store c now newId ok).cache now2 ok2).result
          ≠ .cached b := by
  rcases postExpense_some_cases uid body store c now newId ok with ⟨_, hnc⟩ | ⟨e0, hout, _⟩
  · exact absurd h (hnc e)
  · rw [hout]
    constructor
    · intro kv hkv
      exact (mem_invalidateByOwner.mp hkv).2
    · intro p store2 now2 ok2 b hb
      obtain ⟨kv, hkv, _, huid, _, _⟩ := getExpenses_cached_spec hb
      exact (mem_invalidateByOwner.mp hkv).2 huid

/-- Witness for the invalidation theorem at a concrete successful POST. -/
theorem post_invalidates_owner_witness :
    (postExpense (some "u1") ⟨some 5, some "food", some "z", some "2024-01-15"⟩ []
        [("k", ⟨⟨[], ⟨0, 1, 50, some 0⟩⟩, 0, "u1"⟩)] 0 "id1" true).result
      = .created ⟨"id1", 5, "food", "z", 20240115, 0, 0, "u1"⟩
    ∧ ((∀ kv ∈ (postExpense (some "u1") ⟨some 5, some "food", some "z", some "2024-01-15"⟩ []
          [("k", ⟨⟨[], ⟨0, 1, 50, some 0⟩⟩, 0, "u1"⟩)] 0 "id1" true).cache, kv.2.userId ≠ "u1")
      ∧ ∀ p store2 now2 ok2 b,
          (getExpenses (some "u1") p store2
            (postExpense (some "u1") ⟨some 5, some "food", some "z", some "2024-01-15"⟩ []
              [("k", ⟨⟨[], ⟨0, 1, 50, some 0⟩⟩, 0, "u1"⟩)] 0 "id1" true).cache now2 ok2).result
            ≠ .cached b) :=
  ⟨by decide,
   post_invalidates_owner "u1" ⟨some 5, some "food", some "z", some "2024-01-15"⟩ []
     [("k", ⟨⟨[], ⟨0, 1, 50, some 0⟩⟩, 0, "u1"⟩)] 0 "id1" true
     ⟨"id1", 5, "food", "z", 20240115, 0, 0, "u1"⟩ (by decide)⟩

/-- C9: a successful expense mutation by owner `uidB` deletes no cache entry
of any other owner: the resulting cache is a subset of the old one, and
every entry whose stored owner differs from `uidB` survives unchanged (same
key, data and timestamp, since entries are immutable values). -/
theorem post_frame_other_owners (uidB : String) (body : PostBody) (store : List Expense)
    (c : Cache) (now : Nat) (newId : String) (ok : Bool) (e : Expense)
    (h : (postExpense (some uidB) body store c now newId ok).result = .created e) :
    (∀ kv ∈ (postExpense (some uidB) body store c now newId ok).cache, kv ∈ c)
    ∧ (∀ kv ∈ c, kv.2.userId ≠ uidB →
        kv ∈ (postExpense (some uidB) body store c now newId ok).cache) := by
  rcases postExpense_some_cases uidB body store c now newId ok with ⟨_, hnc⟩ | ⟨e0, hout, _⟩
  · exact absurd h (hnc e)
  · rw [hout]
    constructor
    · intro kv hkv
      exact (mem_invalidateByOwner.mp hkv).1
    · intro kv hkv hne
      exact mem_invalidateByOwner.mpr ⟨hkv, hne⟩

/-- Witness for the frame theorem: owner u2 keeps its entry across a
successful POST by owner u1. -/
theorem post_frame_other_owners_witness :
    (postExpense (some "u1") ⟨some 5, some "food", some "z", some "2024-01-15"⟩ []
        [("k2", ⟨⟨[], ⟨0, 1, 50, some 0⟩⟩, 7, "u2"⟩)] 0 "id1" true).result
      = .created ⟨"id1", 5, "food", "z", 20240115, 0, 0, "u1"⟩
    ∧ ((∀ kv ∈ (postExpense (some "u1") ⟨some 5, some "food", some "z", some "2024-01-15"⟩ []
          [("k2", ⟨⟨[], ⟨0, 1, 50, some 0⟩⟩, 7, "u2"⟩)] 0 "id1" true).cache,
          kv ∈ [("k2", (⟨⟨[], ⟨0, 1, 50, some 0⟩⟩, 7, "u2"⟩ : CacheEntry))])
      ∧ (∀ kv ∈ [("k2", (⟨⟨[], ⟨0, 1, 50, some 0⟩⟩, 7, "u2"⟩ : CacheEntry))],
          kv.2.userId ≠ "u1" →
          kv ∈ (postExpense (some "u1") ⟨some 5, some "food", some "z", some "2024-01-15"⟩ []
            [("k2", ⟨⟨[], ⟨0, 1, 50, some 0⟩⟩, 7, "u2"⟩)] 0 "id1" true).cache)) :=
  ⟨by decide,
   post_frame_other_owners "u1" ⟨some 5, some "food", some "z", some "2024-01-15"⟩ []
     [("k2", ⟨⟨[], ⟨0, 1, 50, some 0⟩⟩, 7, "u2"⟩)] 0 "id1" true
     ⟨"id1", 5, "food", "z", 20240115, 0, 0, "u1"⟩ (by decide)⟩

/-- C2 counterexample: `sortBy=id` is not in the allow-list (date, category,
amount, description), yet the executed query carries order field `id` and
returns the rows in id order, while the same request without `sortBy` (the
default sort field, date) returns them in date order — the raw value is
passed through, not replaced by the default. -/
theorem sortBy_not_defaulted_counterexample :
    ("id" ≠ "date" ∧ "id" ≠ "category" ∧ "id" ≠ "amount" ∧ "id" ≠ "description")
    ∧ (builtFindManyArgs "u1" ⟨none, none, none, none, none, some "id", none⟩ 1 50).orderField
        = "id"
    ∧ (getExpenses (some "u1") ⟨none, none, none, none, none, some "id", none⟩
        [⟨"a", 10, "food", "x", 2, 0, 0, "u1"⟩, ⟨"b", 20, "food", "y", 1, 0, 0, "u1"⟩]
        [] 0 true).result
      = .fresh ⟨[⟨"b", 20, "food", "y", 1, 0, 0, "u1"⟩, ⟨"a", 10, "food", "x", 2, 0, 0, "u1"⟩],
          ⟨2, 1, 50, some 1⟩⟩
    ∧ (getExpenses (some "u1") ⟨none, none, none, none, none, none, none⟩
        [⟨"a", 10, "food", "x", 2, 0, 0, "u1"⟩, ⟨"b", 20, "food", "y", 1, 0, 0, "u1"⟩]
        [] 0 true).result
      = .fresh ⟨[⟨"a", 10, "food", "x", 2, 0, 0, "u1"⟩, ⟨"b", 20, "food", "y", 1, 0, 0, "u1"⟩],
          ⟨2, 1, 50, some 1⟩⟩ := by
  exact ⟨⟨by decide, by decide, by decide, by decide⟩, by decide, by decide, by decide⟩

/-- C2 amended: the handler substitutes the default sort field `date` only
when `sortBy` is absent or empty; any other supplied value — allow-listed or
not — is written verbatim into the order-by field of the executed query. -/
theorem sortBy_passthrough (uid : String) (p : GetParams) (pageN limitN : Int) :
    ((p.sortBy = none ∨ p.sortBy = some "") →
      (builtFindManyArgs uid p pageN limitN).orderField = "date")
    ∧ (∀ s, p.sortBy = some s → s ≠ "" →
      (builtFindManyArgs uid p pageN limitN).orderField = s) := by
  constructor
  · rintro (h | h) <;> simp [builtFindManyArgs, sortByOf, jsOrDefault, h]
  · intro s hs hne
    simp [builtFindManyArgs, sortByOf, jsOrDefault, hs, hne]

/-- Witness for the passthrough theorem at `sortBy=userId`. -/
theorem sortBy_passthrough_witness :
    ((⟨none, none, none, none, none, some "userId", none⟩ : GetParams).sortBy
        = some "userId")
    ∧ ("userId" : String) ≠ ""
    ∧ (builtFindManyArgs "u1" ⟨none, none, none, none, none, some "userId", none⟩ 1 50).orderField
        = "userId" :=
  ⟨rfl, by decide,
   (sortBy_passthrough "u1" ⟨none, none, none, none, none, some "userId", none⟩ 1 50).2
     "userId" rfl (by decide)⟩

/-- C4 counterexample: the key derivation is not injective.  Two requests by
the same owner differing only in the category parameter (absent versus the
literal string `null`) share a key, because absent parameters are rendered
as the string `null`; and two distinct owners can even share a key, because
the fields are joined with unescaped hyphens. -/
theorem cacheKey_collision_counterexample :
    ((⟨none, none, none, none, none, none, none⟩ : GetParams)
        ≠ (⟨none, none, some "null", none, none, none, none⟩ : GetParams))
    ∧ requestCacheKey "u1" ⟨none, none, none, none, none, none, none⟩
        = requestCacheKey "u1" ⟨none, none, some "null", none, none, none, none⟩
    ∧ ("x-1" : String) ≠ "x"
    ∧ requestCacheKey "x-1" ⟨none, none, none, none, none, none, none⟩
        = requestCacheKey "x" ⟨none, some "1", some "50-null", none, none, none, none⟩ := by
  exact ⟨by decide, by decide, by decide, by decide⟩

/-- C4 amended: the key is a deterministic function of the owner and the
normalized parameters — identical owner, identical parsed page and limit and
identical raw remaining parameters always yield the same key — but distinct
parameters may collide (see the counterexample). -/
theorem cacheKey_deterministic (u : String) (p1 p2 : GetParams)
    (h1 : pageOf p1 = pageOf p2) (h2 : limitOf p1 = limitOf p2)
    (h3 : p1.category = p2.category) (h4 : p1.startDate = p2.startDate)
    (h5 : p1.endDate = p2.endDate) (h6 : sortByOf p1 = sortByOf p2)
    (h7 : orderOf p1 = orderOf p2) :
    requestCacheKey u p1 = requestCacheKey u p2 := by
  unfold requestCacheKey
  rw [h1, h2, h3, h4, h5, h6, h7]

/-- Witness for key determinism: page given as `02` and as `2` normalize to
the same parsed page, so the keys coincide. -/
theorem cacheKey_deterministic_witness :
    (pageOf ⟨some "02", none, none, none, none, none, none⟩
        = pageOf ⟨some "2", none, none, none, none, none, none⟩)
    ∧ requestCacheKey "u1" ⟨some "02", none, none, none, none, none, none⟩
        = requestCacheKey "u1" ⟨some "2", none, none, none, none, none, none⟩ :=
  ⟨by decide,
   cacheKey_deterministic "u1" ⟨some "02", none, none, none, none, none, none⟩
     ⟨some "2", none, none, none, none, none, none⟩
     (by decide) rfl rfl rfl rfl rfl rfl⟩

/-- C5 counterexample: a storage-computed response with `limit=0` and an
empty store has total = 0 but pages = NaN (`Math.ceil(0/0)`, serialized as
JSON null), not 0, violating the `pages = 0 when total = 0` clause. -/
theorem pagination_limit_zero_counterexample :
    (getExpenses (some "u1") ⟨none, some "0", none, none, none, none, none⟩
        [] [] 0 true).result
      = .fresh ⟨[], ⟨0, 1, 0, none⟩⟩
    ∧ (⟨[], ⟨0, 1, 0, none⟩⟩ : ExpensesBody).pagination.total = 0
    ∧ (⟨[], ⟨0, 1, 0, none⟩⟩ : ExpensesBody).pagination.pages ≠ some 0 := by
  exact ⟨by decide, by decide, by decide⟩

/-- C5 amended: for every storage-computed response whose parsed limit is a
positive integer, total counts the rows matching the owner, category and
date filters before pagination, the page and limit are echoed, pages is the
ceiling of total over limit, and pages is 0 when total is 0.  (With
limit = 0 the code emits a non-finite pages value instead, see the
counterexample.) -/
theorem pagination_correct (uid : String) (p : GetParams) (store : List Expense)
    (c : Cache) (now : Nat) (ok : Bool) (body : ExpensesBody) (l : Int)
    (h : (getExpenses (some uid) p store c now ok).result = .fresh body)
    (hl : limitOf p = some l) (hpos : 1 ≤ l) :
    body.pagination.total = (store.filter (matchesWhere (buildWhere uid p))).length
    ∧ body.pagination.limit = l
    ∧ pageOf p = some body.pagination.page
    ∧ body.pagination.pages
        = some (((body.pagination.total + l.toNat - 1) / l.toNat : Nat) : Int)
    ∧ (body.pagination.total = 0 → body.pagination.pages = some (0 : Int)) := by
  rcases getExpenses_some_cases uid p store c now ok with ⟨e, _, _, _, hout⟩ | hout
  · rw [hout] at h
    exact GetResult.noConfusion h
  · rw [hout] at h
    rcases getFreshPath_cases uid p store c now ok (requestCacheKey uid p) with
      ⟨hres, _⟩ | ⟨rows, total, pageN, limitN, hpage, hlimit2, hcount, hrows, hfp⟩
    · rw [hres] at h
      exact GetResult.noConfusion h
    · rw [hfp] at h
      have h2 : GetResult.fresh ⟨rows, ⟨total, pageN, limitN, jsCeilDiv total limitN⟩⟩
          = GetResult.fresh body := h
      injection h2 with h2
      subst h2
      rw [hlimit2] at hl
      injection hl with hl
      subst hl
      cases hLcase : limitN with
      | negSucc m =>
        rw [hLcase] at hpos
        exact absurd (lt_of_le_of_lt hpos (Int.negSucc_lt_zero m)) (by decide)
      | ofNat n =>
        cases n with
        | zero =>
          rw [hLcase] at hpos
          exact absurd hpos (by decide)
        | succ m =>
          subst hLcase
          refine ⟨runCount_length hcount, rfl, hpage, ?_, ?_⟩
          · show jsCeilDiv total (Int.ofNat (m + 1))
              = some (((total + (Int.ofNat (m + 1)).toNat - 1) / (Int.ofNat (m + 1)).toNat : Nat) : Int)
            have harith : total + (m + 1) - 1 = total + m := by omega
            have ht : (Int.ofNat (m + 1)).toNat = m + 1 := rfl
            simp only [jsCeilDiv, ht, harith]
          · intro h0
            have h0t : total = 0 := h0
            subst h0t
            show jsCeilDiv 0 (Int.ofNat (m + 1)) = some (0 : Int)
            simp [jsCeilDiv, Nat.div_eq_of_lt (Nat.lt_succ_self m)]

/-- Witness for the pagination theorem at a concrete one-row request. -/
theorem pagination_correct_witness :
    ((getExpenses (some "u1") ⟨none, none, none, none, none, none, none⟩
        [⟨"a", 10, "food", "x", 2, 0, 0, "u1"⟩] [] 0 true).result
      = .fresh ⟨[⟨"a", 10, "food", "x", 2, 0, 0, "u1"⟩], ⟨1, 1, 50, some 1⟩⟩)
    ∧ limitOf ⟨none, none, none, none, none, none, none⟩ = some 50
    ∧ (1 : Int) ≤ 50
    ∧ ((⟨[⟨"a", 10, "food", "x", 2, 0, 0, "u1"⟩], ⟨1, 1, 50, some 1⟩⟩ :
          ExpensesBody).pagination.total
        = ([⟨"a", 10, "food", "x", 2, 0, 0, "u1"⟩].filter
            (matchesWhere (buildWhere "u1" ⟨none, none, none, none, none, none, none⟩))).length
      ∧ (⟨[⟨"a", 10, "food", "x", 2, 0, 0, "u1"⟩], ⟨1, 1, 50, some 1⟩⟩ :
          ExpensesBody).pagination.limit = 50
      ∧ pageOf ⟨none, none, none, none, none, none, none⟩
          = some (⟨[⟨"a", 10, "food", "x", 2, 0, 0, "u1"⟩], ⟨1, 1, 50, some 1⟩⟩ :
              ExpensesBody).pagination.page
      ∧ (⟨[⟨"a", 10, "food", "x", 2, 0, 0, "u1"⟩], ⟨1, 1, 50, some 1⟩⟩ :
          ExpensesBody).pagination.pages
          = some ((((⟨[⟨"a", 10, "food", "x", 2, 0, 0, "u1"⟩], ⟨1, 1, 50, some 1⟩⟩ :
              ExpensesBody).pagination.total + (50 : Int).toNat - 1) / (50 : Int).toNat : Nat) : Int)
      ∧ ((⟨[⟨"a", 10, "food", "x", 2, 0, 0, "u1"⟩], ⟨1, 1, 50, some 1⟩⟩ :
          ExpensesBody).pagination.total = 0 →
          (⟨[⟨"a", 10, "food", "x", 2, 0, 0, "u1"⟩], ⟨1, 1, 50, some 1⟩⟩ :
            ExpensesBody).pagination.pages = some (0 : Int))) :=
  ⟨by decide, by decide, by decide,
   pagination_correct "u1" ⟨none, none, none, none, none, none, none⟩
     [⟨"a", 10, "food", "x", 2, 0, 0, "u1"⟩] [] 0 true
     ⟨[⟨"a", 10, "food", "x", 2, 0, 0, "u1"⟩], ⟨1, 1, 50, some 1⟩⟩ 50
     (by decide) (by decide) (by decide)⟩

/-- C6 counterexample: a body that contains all four fields, with an empty
description, is rejected with 400 (the handler tests JS truthiness, not
presence), instead of creating the expense with 201. -/
theorem post_falsy_field_counterexample :
    ((⟨some 5, some "food", some "", some "2024-01-15"⟩ : PostBody).description ≠ none)
    ∧ (postExpense (some "u1") ⟨some 5, some "food", some "", some "2024-01-15"⟩
        [] [] 0 "id1" true).result = .missingFields
    ∧ PostResult.missingFields.status = 400 := by
  exact ⟨by decide, by decide, by decide⟩

/-- C6 amended: POST /expenses returns 401 when unauthenticated; 400 when
any of the four destructured fields is absent or falsy (zero amount, empty
string); and when all four are truthy and storage accepts the date, it
creates the expense for the authenticated owner and returns it with 201. -/
theorem post_expense_spec (body : PostBody) (store : List Expense) (c : Cache)
    (now : Nat) (newId : String) (ok : Bool) (uid : String) (d : Int) :
    ((postExpense none body store c now newId ok).result = .unauthorized
      ∧ (postExpense none body store c now newId ok).result.status = 401)
    ∧ ((jsTruthyNum body.amount && jsTruthyStr body.category
          && jsTruthyStr body.description && jsTruthyStr body.date) = false →
        (postExpense (some uid) body store c now newId ok).result = .missingFields
        ∧ (postExpense (some uid) body store c now newId ok).result.status = 400)
    ∧ ((jsTruthyNum body.amount && jsTruthyStr body.category
          && jsTruthyStr body.description && jsTruthyStr body.date) = true →
        newDateJS (body.date.getD "") = .valid d →
        (postExpense (some uid) body store c now newId true).result
          = .created ⟨newId, body.amount.getD 0, body.category.getD "",
              body.description.getD "", d, now, now, uid⟩
        ∧ (postExpense (some uid) body store c now newId true).result.status = 201) := by
  refine ⟨⟨rfl, rfl⟩, ?_, ?_⟩
  · intro h
    have hcond : (!jsTruthyNum body.amount || !jsTruthyStr body.category
        || !jsTruthyStr body.description || !jsTruthyStr body.date) = true := by
      cases hA : jsTruthyNum body.amount <;> cases hB : jsTruthyStr body.category <;>
        cases hC : jsTruthyStr body.description <;> cases hD : jsTruthyStr body.date <;>
        simp_all
    simp only [postExpense, hcond, if_true]
    exact ⟨trivial, rfl⟩
  · intro h hd
    have hcond : (!jsTruthyNum body.amount || !jsTruthyStr body.category
        || !jsTruthyStr body.description || !jsTruthyStr body.date) = false := by
      cases hA : jsTruthyNum body.amount <;> cases hB : jsTruthyStr body.category <;>
        cases hC : jsTruthyStr body.description <;> cases hD : jsTruthyStr body.date <;>
        simp_all
    simp only [postExpense, hcond, Bool.false_eq_true, if_false, hd]
    exact ⟨trivial, rfl⟩

/-- Witness for the POST specification at a concrete valid body. -/
theorem post_expense_spec_witness :
    ((jsTruthyNum (some 5) && jsTruthyStr (some "food")
        && jsTruthyStr (some "z") && jsTruthyStr (some "2024-01-15")) = true)
    ∧ newDateJS ((some "2024-01-15").getD "") = .valid 20240115
    ∧ (postExpense (some "u1") ⟨some 5, some "food", some "z", some "2024-01-15"⟩
        [] [] 3 "id9" true).result
      = .created ⟨"id9", 5, "food", "z", 20240115, 3, 3, "u1"⟩ :=
  ⟨by decide, by decide,
   ((post_expense_spec ⟨some 5, some "food", some "z", some "2024-01-15"⟩ [] [] 3 "id9"
       true "u1" 20240115).2.2 (by decide) (by decide)).1⟩

/-- C7 counterexample: a malformed page parameter yields NaN, which flows
into the storage query and surfaces as the generic 500 failure — no
field-specific validation failure is ever produced. -/
theorem malformed_page_counterexample :
    parseIntJS "abc" = none
    ∧ (getExpenses (some "u1") ⟨some "abc", none, none, none, none, none, none⟩
        [] [] 0 true).result = .queryFailed
    ∧ GetResult.queryFailed.status = 500
    ∧ GetResult.queryFailed.status ≠ 400 := by
  exact ⟨by decide, by decide, by decide, by decide⟩

/-- C7 amended: absent page and limit default to 1 and 50; a malformed
(non-numeric, non-empty) page value is not rejected with a validation
failure — its NaN parse reaches the storage call and the handler answers
with the generic 500 query failure. -/
theorem page_limit_parsing (p : GetParams) (uid : String) (store : List Expense)
    (c : Cache) (now : Nat) (ok : Bool) (s : String) :
    (p.page = none → pageOf p = some 1)
    ∧ (p.limit = none → limitOf p = some 50)
    ∧ (p.page = some s → s ≠ "" → parseIntJS s = none →
        cacheGet c (requestCacheKey uid p) = none →
        (getExpenses (some uid) p store c now ok).result = .queryFailed) := by
  refine ⟨?_, ?_, ?_⟩
  · intro h
    simp [pageOf, jsOrDefault, h, parseIntJS]
  · intro h
    simp [limitOf, jsOrDefault, h, parseIntJS]
  · intro hs hne hparse hget
    have hpg : pageOf p = none := by
      simp [pageOf, jsOrDefault, hs, hne, hparse]
    simp only [getExpenses, hget]
    unfold getFreshPath
    split
    · rfl
    · split
      · rfl
      · split
        · next pageN limitN hpage hlimit =>
          rw [hpg] at hpage
          exact Option.noConfusion hpage
        · rfl

/-- Witness for the parsing theorem: defaults at an empty query string, and
the generic failure at `page=abc`. -/
theorem page_limit_parsing_witness :
    (pageOf ⟨none, none, none, none, none, none, none⟩ = some 1
      ∧ limitOf ⟨none, none, none, none, none, none, none⟩ = some 50)
    ∧ (parseIntJS "abc" = none
      ∧ cacheGet [] (requestCacheKey "u1" ⟨some "abc", none, none, none, none, none, none⟩)
          = none
      ∧ (getExpenses (some "u1") ⟨some "abc", none, none, none, none, none, none⟩
          [] [] 0 true).result = .queryFailed) :=
  ⟨⟨(page_limit_parsing ⟨none, none, none, none, none, none, none⟩ "u1" [] [] 0 true "").1 rfl,
    (page_limit_parsing ⟨none, none, none, none, none, none, none⟩ "u1" [] [] 0 true "").2.1 rfl⟩,
   by decide, by decide,
   (page_limit_parsing ⟨some "abc", none, none, none, none, none, none⟩ "u1" [] [] 0 true
     "abc").2.2 rfl (by decide) (by decide) (by decide)⟩

/-- C8 counterexample: a stale entry (age 30001 ms > 30000 ms TTL) is
treated as a miss and is never returned, but it is NOT evicted at lookup
time — when the ensuing storage query fails, the stale entry is still in
the cache afterwards. -/
theorem stale_entry_not_evicted_counterexample :
    (30001 : Nat) - 0 > cacheTTL
    ∧ (getExpenses (some "u1") ⟨none, none, none, none, none, none, none⟩ []
        [(requestCacheKey "u1" ⟨none, none, none, none, none, none, none⟩,
          ⟨⟨[], ⟨0, 1, 50, some 0⟩⟩, 0, "u1"⟩)] 30001 false).result = .queryFailed
    ∧ (getExpenses (some "u1") ⟨none, none, none, none, none, none, none⟩ []
        [(requestCacheKey "u1" ⟨none, none, none, none, none, none, none⟩,
          ⟨⟨[], ⟨0, 1, 50, some 0⟩⟩, 0, "u1"⟩)] 30001 false).cache
      = [(requestCacheKey "u1" ⟨none, none, none, none, none, none, none⟩,
          ⟨⟨[], ⟨0, 1, 50, some 0⟩⟩, 0, "u1"⟩)] := by
  exact ⟨by decide, by decide, by decide⟩

/-- C8 amended: an entry older than the TTL at lookup time is treated as a
miss — it is never returned and the request takes the storage path — but it
is not deleted at lookup; it is only replaced if the fresh query succeeds,
or removed later by the periodic sweep, which deletes exactly the entries
whose age exceeds the TTL. -/
theorem stale_treated_as_miss (uid : String) (p : GetParams) (store : List Expense)
    (c : Cache) (now : Nat) (ok : Bool) (e : CacheEntry) :
    (cacheGet c (requestCacheKey uid p) = some e → cacheTTL ≤ now - e.timestamp →
      getExpenses (some uid) p store c now ok
        = getFreshPath uid p store c now ok (requestCacheKey uid p)
      ∧ ∀ b, (getExpenses (some uid) p store c now ok).result ≠ .cached b)
    ∧ (∀ kv, kv ∈ sweep now c ↔ kv ∈ c ∧ now - kv.2.timestamp ≤ cacheTTL) := by
  constructor
  · intro hget hstale
    have hmain : getExpenses (some uid) p store c now ok
        = getFreshPath uid p store c now ok (requestCacheKey uid p) := by
      simp only [getExpenses, hget]
      split
      · next hcond =>
        exact absurd hcond.2 (Nat.not_lt.mpr hstale)
      · rfl
    refine ⟨hmain, ?_⟩
    intro b
    rw [hmain]
    exact getFreshPath_not_cached
  · intro kv
    exact mem_sweep

/-- Witness for the staleness theorem at an entry exactly TTL old. -/
theorem stale_treated_as_miss_witness :
    cacheGet [(requestCacheKey "u1" ⟨none, none, none, none, none, none, none⟩,
        (⟨⟨[], ⟨0, 1, 50, some 0⟩⟩, 0, "u1"⟩ : CacheEntry))]
      (requestCacheKey "u1" ⟨none, none, none, none, none, none, none⟩)
      = some ⟨⟨[], ⟨0, 1, 50, some 0⟩⟩, 0, "u1"⟩
    ∧ cacheTTL ≤ 30000 - (0 : Nat)
    ∧ (getExpenses (some "u1") ⟨none, none, none, none, none, none, none⟩ []
        [(requestCacheKey "u1" ⟨none, none, none, none, none, none, none⟩,
          ⟨⟨[], ⟨0, 1, 50, some 0⟩⟩, 0, "u1"⟩)] 30000 true
      = getFreshPath "u1" ⟨none, none, none, none, none, none, none⟩ []
          [(requestCacheKey "u1" ⟨none, none, none, none, none, none, none⟩,
            ⟨⟨[], ⟨0, 1, 50, some 0⟩⟩, 0, "u1"⟩)] 30000 true
          (requestCacheKey "u1" ⟨none, none, none, none, none, none, none⟩)
      ∧ ∀ b, (getExpenses (some "u1") ⟨none, none, none, none, none, none, none⟩ []
          [(requestCacheKey "u1" ⟨none, none, none, none, none, none, none⟩,
            ⟨⟨[], ⟨0, 1, 50, some 0⟩⟩, 0, "u1"⟩)] 30000 true).result ≠ .cached b) :=
  ⟨by decide, by decide,
   (stale_treated_as_miss "u1" ⟨none, none, none, none, none, none, none⟩ []
     [(requestCacheKey "u1" ⟨none, none, none, none, none, none, none⟩,
       ⟨⟨[], ⟨0, 1, 50, some 0⟩⟩, 0, "u1"⟩)] 30000 true
     ⟨⟨[], ⟨0, 1, 50, some 0⟩⟩, 0, "u1"⟩).1 (by decide) (by decide)⟩

/-- C10: there is a pair of distinct passwords sharing a three-character
stem such that, after a successful login with the first, an authorize call
within one hour with the same email and the second (wrong) password returns
the cached user object without invoking the password comparison at all —
login success is cached under email plus the first three password
characters. -/
theorem login_cache_keyed_by_password_stem :
    ∃ p1 p2 : String, p1 ≠ p2 ∧ p1.take 3 = p2.take 3
      ∧ cmpModel p2 "hashOfHunter" = false
      ∧ (authorize cmpModel usersModel "a@b.c" p1 [] 0).result
          = some ⟨"u1", "a@b.c", none⟩
      ∧ (authorize cmpModel usersModel "a@b.c" p1 [] 0).comparedPassword = true
      ∧ (3500000 : Nat) < 3600000
      ∧ (authorize cmpModel usersModel "A@b.c" p2
          (expireLogins 3500000 (authorize cmpModel usersModel "a@b.c" p1 [] 0).cache)
          3500000).result = some ⟨"u1", "a@b.c", none⟩
      ∧ (authorize cmpModel usersModel "A@b.c" p2
          (expireLogins 3500000 (authorize cmpModel usersModel "a@b.c" p1 [] 0).cache)
          3500000).comparedPassword = false := by
  refine ⟨"hunter2!", "hunWRONG", ?_, ?_, ?_, ?_, ?_, ?_, ?_, ?_⟩
  · decide
  · decide
  · decide
  · decide
  · decide
  · decide
  · decide
  · decide

end FinanceTracker
